import Mathlib

/-!
# zapfsfs: pattern fill, scrub pass, free-space probe and orchestration

A shallow embedding of `main.go`, `getFreeSpacePosix.go` and
`getFreeSpaceWindows.go`.

* Byte slices are lists of bytes; a slice index of Go type `int` is a natural
  number (an index never exceeds the length of a slice held in memory).
* `uint64` values are natural numbers and every `uint64` multiplication of the
  source is reduced modulo `2 ^ 64`.
* A loop that need not terminate (`fillPattern`) takes a bound on its number of
  iterations and answers `none` when the bound is reached.
* Operating-system calls are answered by an explicit table of outcomes, and
  every call that is attempted is recorded in a trace of events.
* `make([]byte, n)` is a list of `n` zero bytes: memory is not modelled.
-/

namespace Zapfsfs

/-- A Go `byte`. -/
abbrev Byte := Fin 256

/-- The word size of `uint64`. -/
def u64 : Nat := 2 ^ 64

/-! ## Pattern fill (`main.go`, lines 54-59) -/

/-- Go's builtin `copy(dst, src)`, returning the new contents of `dst`: the
first `min (len dst) (len src)` bytes of `dst` are replaced by those of `src`. -/
def copy (dst src : List Byte) : List Byte :=
  src.take dst.length ++ dst.drop src.length

/-- The statement `copy(buf[ix:], src)` as an update of `buf`. -/
def copyAt (buf : List Byte) (ix : Nat) (src : List Byte) : List Byte :=
  buf.take ix ++ copy (buf.drop ix) src

/-- The loop `for ix := 0; ix < len(buf); ix += pLen { copy(buf[ix:], pattern) }`
started at `ix`, run for at most `fuel` evaluations of the loop condition.
`none`: the loop has not finished within `fuel`. -/
def fillPatternLoop (pattern : List Byte) : Nat → Nat → List Byte → Option (List Byte)
  | 0, _, _ => none
  | fuel + 1, ix, buf =>
    if ix < buf.length then
      fillPatternLoop pattern fuel (ix + pattern.length) (copyAt buf ix pattern)
    else
      some buf

/-- The function `fillPattern(buf, pattern)`: the contents of `buf` when the
call returns, or `none` when it has not returned within `fuel` loop tests. -/
def fillPattern (fuel : Nat) (buf pattern : List Byte) : Option (List Byte) :=
  fillPatternLoop pattern fuel 0 buf

/-- The loop invariant of `fillPattern`: the bytes below `ix` are tiled. -/
def Tiled (pattern : List Byte) (ix : Nat) (buf : List Byte) : Prop :=
  ∀ i, i < ix → i < buf.length → buf[i]? = pattern[i % pattern.length]?

/-! ## Errors, events and operating-system outcomes -/

/-- An error value handed back by an operating-system call (an errno). -/
abbrev OSError := Nat

/-- An error built by `fmt.Errorf(format, err)`: the format text, which holds
the stage label, and the error wrapped by `%w` (none for a format without `%w`). -/
structure GoError where
  format : String
  wrapped : Option OSError
deriving DecidableEq, Repr

/-- Text written to standard output (`fmt.Println`, `fmt.Printf`). A formatted
line is kept as its arguments: `%.2f` of a float is not rendered. -/
inductive Output
  | usage
  | beginTestRun
  | beginRun (tempDir : String) (bufferCount bufferSizeMB tempFileSize npasses : Nat)
  | freeSpace (freeBytes : Nat)
  | pass (pass npasses : Nat)
  | ended
deriving DecidableEq, Repr

/-- Text written to standard error (`fmt.Fprintln`, `fmt.Fprintf` on `os.Stderr`). -/
inductive Diagnostic
  | tempdirRequired
  | notPositive
  | notEnoughSpace (freeBytes : Nat)
  | modifyParameters
  | notDirectory (tempDir : String)
  | createFailed (path : String) (err : OSError)
  | writeFailed (path : String) (err : OSError)
  | passFailed (pass : Nat) (err : GoError)
deriving DecidableEq, Repr

/-- What a run does that can be observed, in the order it is done: the
operating-system calls it attempts, the lines it prints, and each call of
`scrubOnceSecure` with its arguments. -/
inductive Event
  | getFreeSpace (path : String)
  | stat (path : String)
  | create (path : String)
  | createTemp (dir pat : String)
  | write (file : String) (data : List Byte)
  | sync (file : String)
  | close (file : String)
  | remove (path : String)
  | scrubOnceSecure (tempDir : String) (bufferCount bufferSize : Nat) (pattern : List Byte)
  | stdout (text : Output)
  | stderr (text : Diagnostic)
deriving DecidableEq, Repr

/-- An event that touches the disk: every operating-system call of the model. -/
def Event.isDisk : Event → Bool
  | .getFreeSpace _ => true
  | .stat _ => true
  | .create _ => true
  | .createTemp _ _ => true
  | .write _ _ => true
  | .sync _ => true
  | .close _ => true
  | .remove _ => true
  | .scrubOnceSecure _ _ _ _ => false
  | .stdout _ => false
  | .stderr _ => false

/-- An event that creates a file. -/
def Event.isCreate : Event → Bool
  | .create _ => true
  | .createTemp _ _ => true
  | _ => false

/-- An event that is a call of `scrubOnceSecure`. -/
def Event.isScrubCall : Event → Bool
  | .scrubOnceSecure _ _ _ _ => true
  | _ => false

/-- An event that closes or removes a file. -/
def Event.isCleanup : Event → Bool
  | .close _ => true
  | .remove _ => true
  | _ => false

/-- The outcomes of the operating-system calls of one pass.
`createTemp`: the name of the new file, or the error of `os.CreateTemp`.
`write ix`: the `ix`-th `tempFile.Write(buffer)` writes the whole buffer, or
writes its first `n` bytes and fails with `e` (`.error (n, e)`).
`sync`, `close`, `remove`: the error of the call, if any. -/
structure PassOS where
  createTemp : Except OSError String
  write : Nat → Except (Nat × OSError) Unit
  sync : Option OSError
  close : Option OSError
  remove : Option OSError

/-! ## One scrub pass (`main.go`, lines 61-89) -/

/-- What a loop of writes leaves behind: the calls it made, the contents of the
temp file, and the error of the write that failed, if one did. -/
structure WriteResult where
  trace : List Event
  file : List Byte
  err : Option OSError

/-- The loop `for ix := uint64(0); ix < bufferCount; ix++` of `scrubOnceSecure`,
with `n = bufferCount - ix` iterations still to run and `file` the bytes the
temp file holds. A write that fails ends the loop. -/
def writeLoop (os : PassOS) (name : String) (buffer : List Byte) :
    Nat → Nat → List Byte → WriteResult
  | 0, _, file => ⟨[], file, none⟩
  | n + 1, ix, file =>
    match os.write ix with
    | .ok _ =>
      let r := writeLoop os name buffer n (ix + 1) (file ++ buffer)
      ⟨Event.write name buffer :: r.trace, r.file, r.err⟩
    | .error (k, e) => ⟨[Event.write name buffer], file ++ buffer.take k, some e⟩

/-- What a pass leaves behind: the operating-system calls it attempted, the
bytes the temp file held when the last write or the sync was done (before the
deferred removal), and the value `scrubOnceSecure` returns (`none` is `nil`). -/
structure PassResult where
  trace : List Event
  file : List Byte
  err : Option GoError

/-- The function `scrubOnceSecure(tempDir, bufferCount, bufferSize, pattern)`.
The deferred function runs on every return that follows a successful
`os.CreateTemp`; the results of `Close` and `Remove` are discarded. `none`: the
call of `fillPattern` has not returned within `fuel`. -/
def scrubOnceSecure (fuel : Nat) (os : PassOS) (tempDir : String)
    (bufferCount bufferSize : Nat) (pattern : List Byte) : Option PassResult :=
  if pattern.length < 1 then
    some ⟨[], [], some ⟨"scrubOnceSecure: empty fill pattern array", none⟩⟩
  else
    match os.createTemp with
    | .error e =>
      some ⟨[Event.createTemp tempDir "zapfsfs_*.tmp"], [],
        some ⟨"scrubOnceSecure: create temp file: %w", some e⟩⟩
    | .ok name =>
      let deferred := [Event.close name, Event.remove name]
      match fillPattern fuel (List.replicate bufferSize 0) pattern with
      | none => none
      | some buffer =>
        let w := writeLoop os name buffer bufferCount 0 []
        match w.err with
        | some e =>
          some ⟨Event.createTemp tempDir "zapfsfs_*.tmp" :: w.trace ++ deferred, w.file,
            some ⟨"scrubOnceSecure: write failed: %w", some e⟩⟩
        | none =>
          match os.sync with
          | some e =>
            some ⟨Event.createTemp tempDir "zapfsfs_*.tmp" :: w.trace ++
              [Event.sync name] ++ deferred, w.file,
              some ⟨"scrubOnceSecure: sync failed: %w", some e⟩⟩
          | none =>
            some ⟨Event.createTemp tempDir "zapfsfs_*.tmp" :: w.trace ++
              [Event.sync name] ++ deferred, w.file, none⟩

/-- Every operating-system call a pass can make for `bufferCount` writes
succeeds, and the temp file is named `name`. -/
def PassOS.AllOk (os : PassOS) (name : String) (bufferCount : Nat) : Prop :=
  os.createTemp = .ok name ∧ (∀ ix, ix < bufferCount → os.write ix = .ok ()) ∧
    os.sync = none ∧ os.close = none ∧ os.remove = none

/-! ## Free-space probe (`getFreeSpacePosix.go`, `getFreeSpaceWindows.go`) -/

/-- Modelled from the spec: the two fields of `unix.Statfs_t` (package
`golang.org/x/sys/unix`) that `getFreeSpace` reads, with their linux/amd64
types: `Bavail` is a `uint64`, `Bsize` an `int64`. -/
structure Statfs_t where
  Bavail : Nat
  Bsize : Int

/-- The conversion `uint64(x)` of a signed integer. -/
def toUint64 (x : Int) : Nat := (x % (u64 : Int)).toNat

/-- The POSIX `getFreeSpace(path)`, given the outcome of `unix.Statfs(path, &stat)`.
The product is a `uint64` multiplication. -/
def getFreeSpacePosix (statfs : Except OSError Statfs_t) : Nat × Option OSError :=
  match statfs with
  | .error err => (0, some err)
  | .ok stat => ((stat.Bavail * toUint64 stat.Bsize) % u64, none)

/-- The Windows `getFreeSpace(path)`, given the error of
`syscall.UTF16PtrFromString(path)`, if any, and the outcome of
`windows.GetDiskFreeSpaceEx`: its error, or the three values `avail`, `total`
and `free` it stores. -/
def getFreeSpaceWindows (utf16 : Option OSError) (disk : Except OSError (Nat × Nat × Nat)) :
    Nat × Option OSError :=
  match utf16 with
  | some err => (0, some err)
  | none =>
    match disk with
    | .error err => (0, some err)
    | .ok (avail, _, _) => (avail, none)

/-! ## Orchestration (`main.go`, lines 10-27 and 91-176) -/

/-- The constant `mb`, the megabyte unit. -/
def mb : Nat := 1024 * 1024

/-- The package variable `pattern`, the byte pattern of buffer filling. -/
def pattern : List Byte := [0xAA, 0x55]

/-- The values of the command-line flags `-b`, `-c`, `-n` (each a `uint64`) and
`-t` after `flag.Parse()`. -/
structure Flags where
  bufferSizeMB : Nat
  bufferCount : Nat
  npasses : Nat
  testRun : Bool

/-- The outcomes of the operating-system calls of a run.
`freeSpace`: what `getFreeSpace(tempDir)` returns, whichever build variant.
`stat`: whether the path is a directory, or the error of `os.Stat`.
`create`, `dummyWrite`, `dummyClose`, `dummyRemove`: the error, if any, of the
call on the throwaway file. `pass ix`: the outcomes during loop iteration `ix`. -/
structure OS where
  freeSpace : Nat × Option OSError
  stat : Except OSError Bool
  create : Option OSError
  dummyWrite : Option OSError
  dummyClose : Option OSError
  dummyRemove : Option OSError
  pass : Nat → PassOS

/-- What a run leaves behind: its events in order and its exit code (`0` when
`main` returns, `1` on `os.Exit(1)`). -/
structure RunResult where
  trace : List Event
  exitCode : Nat

/-- The library call `filepath.Join(dir, name)`, without path cleaning. -/
def filepathJoin (dir name : String) : String := dir ++ "/" ++ name

/-- The loop `for ix := uint64(0); ix < *npasses; ix++` of `main`, with
`n = npasses - ix` iterations still to run. It ends the run with exit code 1 at
the first pass that returns an error, and otherwise falls through to the final
`fmt.Println("End.")`. `none`: a pass has not returned within `fuel`. -/
def passLoop (fuel : Nat) (os : OS) (tempDir : String) (bufferCount bufferSize npasses : Nat) :
    Nat → Nat → Option RunResult
  | 0, _ => some ⟨[Event.stdout Output.ended], 0⟩
  | n + 1, ix =>
    let pass := ix + 1
    match scrubOnceSecure fuel (os.pass ix) tempDir bufferCount bufferSize pattern with
    | none => none
    | some r =>
      let head := Event.stdout (Output.pass pass npasses) ::
        Event.scrubOnceSecure tempDir bufferCount bufferSize pattern :: r.trace
      match r.err with
      | some err => some ⟨head ++ [Event.stderr (Diagnostic.passFailed pass err)], 1⟩
      | none =>
        match passLoop fuel os tempDir bufferCount bufferSize npasses n (ix + 1) with
        | none => none
        | some rest => some ⟨head ++ rest.trace, rest.exitCode⟩

/-- The part of `main` from the directory check on (lines 139-176). -/
def mainChecks (fuel : Nat) (os : OS) (flags : Flags) (tempDir : String) (bufferSize : Nat) :
    Option RunResult :=
  match os.stat with
  | .error _ => some ⟨[Event.stat tempDir, Event.stderr (Diagnostic.notDirectory tempDir)], 1⟩
  | .ok false => some ⟨[Event.stat tempDir, Event.stderr (Diagnostic.notDirectory tempDir)], 1⟩
  | .ok true =>
    let dummyPath := filepathJoin tempDir "zapfsfs_dummy.bin"
    match os.create with
    | some err =>
      some ⟨[Event.stat tempDir, Event.create dummyPath,
        Event.stderr (Diagnostic.createFailed dummyPath err)], 1⟩
    | none =>
      let probe := [Event.stat tempDir, Event.create dummyPath, Event.write dummyPath pattern,
        Event.close dummyPath, Event.remove dummyPath]
      match os.dummyWrite with
      | some err => some ⟨probe ++ [Event.stderr (Diagnostic.writeFailed dummyPath err)], 1⟩
      | none =>
        if !flags.testRun then
          match passLoop fuel os tempDir flags.bufferCount bufferSize flags.npasses
              flags.npasses 0 with
          | none => none
          | some r => some ⟨probe ++ r.trace, r.exitCode⟩
        else
          some ⟨probe ++ [Event.stdout Output.ended], 0⟩

/-- The function `main`, given the flag values and the positional arguments
`flag.Args()`. `none`: a pass has not returned within `fuel`. -/
def main (fuel : Nat) (os : OS) (flags : Flags) (args : List String) : Option RunResult :=
  match args with
  | [] => some ⟨[Event.stdout Output.usage], 0⟩
  | [tempDir] =>
    if flags.bufferSizeMB < 1 ∨ flags.bufferCount < 1 ∨ flags.npasses < 1 then
      some ⟨[Event.stderr Diagnostic.notPositive], 1⟩
    else
      let bufferSize := (flags.bufferSizeMB * mb) % u64
      let tempFileSize := (flags.bufferCount * bufferSize) % u64
      let freeBytes := os.freeSpace.1
      if flags.testRun then
        match mainChecks fuel os flags tempDir bufferSize with
        | none => none
        | some r =>
          some ⟨Event.getFreeSpace tempDir :: Event.stdout Output.beginTestRun :: r.trace,
            r.exitCode⟩
      else
        let banner := [Event.getFreeSpace tempDir,
          Event.stdout (Output.beginRun tempDir flags.bufferCount flags.bufferSizeMB
            tempFileSize flags.npasses),
          Event.stdout (Output.freeSpace freeBytes)]
        if freeBytes < tempFileSize then
          some ⟨banner ++ [Event.stderr (Diagnostic.notEnoughSpace freeBytes),
            Event.stderr Diagnostic.modifyParameters], 1⟩
        else
          match mainChecks fuel os flags tempDir bufferSize with
          | none => none
          | some r => some ⟨banner ++ r.trace, r.exitCode⟩
  | _ :: _ :: _ =>
    some ⟨[Event.stderr Diagnostic.tempdirRequired, Event.stdout Output.usage], 1⟩

/-- The calls of `scrubOnceSecure` in a trace, in order. -/
def scrubCalls (trace : List Event) : List Event := trace.filter Event.isScrubCall

/-- A pass on a disk that fills up: the temp file `name` is created, the first
write succeeds, and every later write stores one byte and fails with
`ENOSPC` (errno 28). -/
def fullDiskPass (name : String) : PassOS where
  createTemp := .ok name
  write := fun ix => if ix = 0 then .ok () else .error (1, 28)
  sync := none
  close := none
  remove := none

/-- A pass on which every call succeeds, with the temp file named `name`. -/
def okPass (name : String) : PassOS where
  createTemp := .ok name
  write := fun _ => .ok ()
  sync := none
  close := none
  remove := none

/-- An operating system on which every call succeeds: `free` bytes are
available and every temp file is named `name`. -/
def okOS (free : Nat) (name : String) : OS where
  freeSpace := (free, none)
  stat := .ok true
  create := none
  dummyWrite := none
  dummyClose := none
  dummyRemove := none
  pass := fun _ => okPass name

/-- Pass `ix` of a run returns `nil`. -/
def PassSucceeds (fuel : Nat) (os : OS) (tempDir : String) (bufferCount bufferSize ix : Nat) :
    Prop :=
  ∃ r, scrubOnceSecure fuel (os.pass ix) tempDir bufferCount bufferSize pattern = some r ∧
    r.err = none

/-- Pass `ix` of a run returns an error. -/
def PassFails (fuel : Nat) (os : OS) (tempDir : String) (bufferCount bufferSize ix : Nat) :
    Prop :=
  ∃ r err, scrubOnceSecure fuel (os.pass ix) tempDir bufferCount bufferSize pattern = some r ∧
    r.err = some err

/-! ## Facts about `copy` and the fill loop -/

theorem copy_length (dst src : List Byte) : (copy dst src).length = dst.length := by
  simp only [copy, List.length_append, List.length_take, List.length_drop]
  omega

theorem copyAt_length (buf : List Byte) (ix : Nat) (src : List Byte) :
    (copyAt buf ix src).length = buf.length := by
  simp only [copyAt, List.length_append, List.length_take, copy_length, List.length_drop]
  omega

theorem copyAt_getElem?_lt (buf : List Byte) (ix : Nat) (src : List Byte) (i : Nat)
    (hix : ix ≤ buf.length) (hi : i < ix) : (copyAt buf ix src)[i]? = buf[i]? := by
  have h1 : i < (buf.take ix).length := by simp [List.length_take]; omega
  rw [copyAt, List.getElem?_append_left h1, List.getElem?_take_of_lt hi]

theorem copyAt_getElem?_mid (buf : List Byte) (ix : Nat) (src : List Byte) (i : Nat)
    (hix : ix ≤ buf.length) (h1 : ix ≤ i) (h2 : i < ix + src.length) (h3 : i < buf.length) :
    (copyAt buf ix src)[i]? = src[i - ix]? := by
  have hl : (buf.take ix).length = ix := by simp [List.length_take]; omega
  have hle : (buf.take ix).length ≤ i := by omega
  rw [copyAt, List.getElem?_append_right hle, hl, copy]
  have h4 : i - ix < (src.take (buf.drop ix).length).length := by
    simp [List.length_take, List.length_drop]; omega
  rw [List.getElem?_append_left h4, List.getElem?_take_of_lt]
  simp [List.length_drop]; omega

theorem tiled_step (pattern buf : List Byte) (ix : Nat)
    (hdvd : pattern.length ∣ ix) (hlt : ix < buf.length) (h : Tiled pattern ix buf) :
    Tiled pattern (ix + pattern.length) (copyAt buf ix pattern) := by
  intro i hi hil
  rw [copyAt_length] at hil
  by_cases hc : i < ix
  · rw [copyAt_getElem?_lt buf ix pattern i (by omega) hc]
    exact h i hc hil
  · have hge : ix ≤ i := by omega
    rw [copyAt_getElem?_mid buf ix pattern i (by omega) hge hi hil]
    obtain ⟨k, rfl⟩ := hdvd
    have hmod : i % pattern.length = i - pattern.length * k := by
      have hsplit : i = (i - pattern.length * k) + pattern.length * k := by omega
      conv_lhs => rw [hsplit]
      rw [Nat.add_mul_mod_self_left]
      exact Nat.mod_eq_of_lt (by omega)
    rw [hmod]

theorem fillPatternLoop_spec (pattern : List Byte) (hp : 0 < pattern.length) :
    ∀ (fuel ix : Nat) (buf : List Byte), pattern.length ∣ ix → Tiled pattern ix buf →
      buf.length - ix < fuel →
      ∃ r, fillPatternLoop pattern fuel ix buf = some r ∧ r.length = buf.length ∧
        ∀ i, i < r.length → r[i]? = pattern[i % pattern.length]? := by
  intro fuel
  induction fuel with
  | zero => intro ix buf _ _ hf; omega
  | succ n ih =>
    intro ix buf hdvd hinv hf
    by_cases hlt : ix < buf.length
    · have hstep := tiled_step pattern buf ix hdvd hlt hinv
      have hfuel : (copyAt buf ix pattern).length - (ix + pattern.length) < n := by
        rw [copyAt_length]; omega
      obtain ⟨r, hr, hlen, hall⟩ :=
        ih (ix + pattern.length) (copyAt buf ix pattern) (Dvd.dvd.add hdvd (dvd_refl _))
          hstep hfuel
      refine ⟨r, ?_, ?_, hall⟩
      · simp only [fillPatternLoop, hlt, if_true]; exact hr
      · rw [hlen, copyAt_length]
    · refine ⟨buf, ?_, rfl, ?_⟩
      · simp only [fillPatternLoop, hlt, if_false]
      · intro i hi; exact hinv i (by omega) hi

/-- The fill returns a tiled buffer of the same length, given enough fuel. -/
theorem fillPattern_returns (b p : List Byte) (hp : p ≠ []) (fuel : Nat)
    (hfuel : b.length < fuel) :
    ∃ r, fillPattern fuel b p = some r ∧ r.length = b.length ∧
      ∀ i, i < b.length → r[i]? = p[i % p.length]? := by
  obtain ⟨r, hr, hlen, hall⟩ :=
    fillPatternLoop_spec p (List.length_pos.mpr hp) fuel 0 b (dvd_zero _)
      (fun i hi _ => absurd hi (Nat.not_lt_zero i)) (by omega)
  exact ⟨r, hr, hlen, fun i hi => hall i (by omega)⟩

/-- With the empty pattern the loop makes no progress on a non-empty buffer. -/
theorem fillPatternLoop_nil_none (fuel : Nat) (buf : List Byte) (h : 0 < buf.length) :
    fillPatternLoop [] fuel 0 buf = none := by
  induction fuel generalizing buf with
  | zero => rfl
  | succ n ih =>
    have hc : (copyAt buf 0 []).length = buf.length := copyAt_length buf 0 []
    simp only [fillPatternLoop, h, if_true, List.length_nil, Nat.add_zero]
    exact ih (copyAt buf 0 []) (by omega)

/-! ## Claims on pattern fill -/

/-- C1: for a non-empty pattern `p` and a buffer `b` of any length,
`fillPattern(b, p)` returns (any bound above `len b` on the loop tests is
enough), the buffer keeps its length, afterwards byte `i` is
`p[i mod len p]` for every `i < len b`, and the outcome is the same for every
other buffer of that length. -/
theorem fillPattern_tiles (b p : List Byte) (hp : p ≠ []) (fuel : Nat)
    (hfuel : b.length < fuel) :
    ∃ r, fillPattern fuel b p = some r ∧ r.length = b.length ∧
      (∀ i, i < b.length → r[i]? = p[i % p.length]?) ∧
      (∀ b' : List Byte, b'.length = b.length → fillPattern fuel b' p = some r) := by
  obtain ⟨r, hr, hlen, hall⟩ := fillPattern_returns b p hp fuel hfuel
  refine ⟨r, hr, hlen, hall, ?_⟩
  intro b' hb'
  obtain ⟨r', hr', hlen', hall'⟩ := fillPattern_returns b' p hp fuel (by omega)
  have heq : r' = r := by
    apply List.ext_getElem?
    intro i
    by_cases hi : i < b.length
    · rw [hall i hi, hall' i (by omega)]
    · rw [List.getElem?_eq_none (by omega), List.getElem?_eq_none (by omega)]
  rw [← heq]; exact hr'

/-- C1 at a three-byte pattern and a five-byte buffer. -/
theorem fillPattern_tiles_witness :
    ∃ r, fillPattern 6 [9, 9, 9, 9, 9] [1, 2, 3] = some r ∧
      r.length = [9, 9, 9, 9, 9].length ∧
      (∀ i, i < [9, 9, 9, 9, 9].length → r[i]? = [1, 2, 3][i % [1, 2, 3].length]?) ∧
      (∀ b' : List Byte, b'.length = [9, 9, 9, 9, 9].length →
        fillPattern 6 b' [1, 2, 3] = some r) :=
  fillPattern_tiles [9, 9, 9, 9, 9] [1, 2, 3] (by decide) 6 (by decide)

/-! ## Facts about the write loop -/

theorem writeLoop_ok (os : PassOS) (name : String) (buffer : List Byte) :
    ∀ (n ix : Nat) (file : List Byte), (∀ j, j < n → os.write (ix + j) = .ok ()) →
      writeLoop os name buffer n ix file =
        ⟨List.replicate n (Event.write name buffer),
          file ++ (List.replicate n buffer).flatten, none⟩ := by
  intro n
  induction n with
  | zero => intro ix file _; simp [writeLoop]
  | succ n ih =>
    intro ix file h
    have h0 : os.write ix = .ok () := by simpa using h 0 (Nat.succ_pos n)
    have hrest : ∀ j, j < n → os.write (ix + 1 + j) = .ok () := by
      intro j hj
      have := h (j + 1) (by omega)
      rwa [show ix + (j + 1) = ix + 1 + j by omega] at this
    simp only [writeLoop, h0, ih (ix + 1) (file ++ buffer) hrest, List.replicate_succ,
      List.flatten_cons, List.append_assoc]

theorem writeLoop_fail (os : PassOS) (name : String) (buffer : List Byte) (m : Nat)
    (e : OSError) :
    ∀ (k n ix : Nat) (file : List Byte), k < n → (∀ j, j < k → os.write (ix + j) = .ok ()) →
      os.write (ix + k) = .error (m, e) →
      writeLoop os name buffer n ix file =
        ⟨List.replicate (k + 1) (Event.write name buffer),
          file ++ (List.replicate k buffer).flatten ++ buffer.take m, some e⟩ := by
  intro k
  induction k with
  | zero =>
    intro n ix file hn _ hk
    obtain ⟨n, rfl⟩ : ∃ n', n = n' + 1 := ⟨n - 1, by omega⟩
    have hk0 : os.write ix = .error (m, e) := by simpa using hk
    simp [writeLoop, hk0]
  | succ k ih =>
    intro n ix file hn h hk
    obtain ⟨n, rfl⟩ : ∃ n', n = n' + 1 := ⟨n - 1, by omega⟩
    have h0 : os.write ix = .ok () := by simpa using h 0 (Nat.succ_pos k)
    have hrest : ∀ j, j < k → os.write (ix + 1 + j) = .ok () := by
      intro j hj
      have := h (j + 1) (by omega)
      rwa [show ix + (j + 1) = ix + 1 + j by omega] at this
    have hk1 : os.write (ix + 1 + k) = .error (m, e) := by
      rwa [show ix + (k + 1) = ix + 1 + k by omega] at hk
    simp only [writeLoop, h0, ih n (ix + 1) (file ++ buffer) (by omega) hrest hk1,
      List.replicate_succ, List.flatten_cons, List.append_assoc]

theorem writeLoop_err_none (os : PassOS) (name : String) (buffer : List Byte) :
    ∀ (n ix : Nat) (file : List Byte), (writeLoop os name buffer n ix file).err = none →
      ∀ j, j < n → os.write (ix + j) = .ok () := by
  intro n
  induction n with
  | zero => intro ix file _ j hj; omega
  | succ n ih =>
    intro ix file h j hj
    cases hw : os.write ix with
    | error p =>
      obtain ⟨k, e⟩ := p
      simp [writeLoop, hw] at h
    | ok u =>
      simp only [writeLoop, hw] at h
      cases j with
      | zero => simpa using hw
      | succ j =>
        have := ih (ix + 1) (file ++ buffer) h j (by omega)
        rwa [show ix + 1 + j = ix + (j + 1) by omega] at this

theorem flatten_replicate_length (buffer : List Byte) (n : Nat) :
    (List.replicate n buffer).flatten.length = n * buffer.length := by
  induction n with
  | zero => simp
  | succ n ih =>
    rw [List.replicate_succ, List.flatten_cons, List.length_append, ih]
    ring

theorem flatten_replicate_getElem? (buffer : List Byte) :
    ∀ (n j : Nat), j < n * buffer.length →
      (List.replicate n buffer).flatten[j]? = buffer[j % buffer.length]? := by
  intro n
  induction n with
  | zero => intro j hj; simp at hj
  | succ n ih =>
    intro j hj
    rw [List.replicate_succ, List.flatten_cons]
    by_cases hlt : j < buffer.length
    · rw [List.getElem?_append_left hlt, Nat.mod_eq_of_lt hlt]
    · have hle : buffer.length ≤ j := by omega
      have hj' : j - buffer.length < n * buffer.length := by
        have : (n + 1) * buffer.length = n * buffer.length + buffer.length := by ring
        omega
      rw [List.getElem?_append_right hle, ih (j - buffer.length) hj']
      congr 1
      conv_rhs => rw [← Nat.sub_add_cancel hle]
      rw [Nat.add_mod_right]

theorem writeLoop_trace_mem (os : PassOS) (name : String) (buffer : List Byte) :
    ∀ (n ix : Nat) (file : List Byte) (ev : Event),
      ev ∈ (writeLoop os name buffer n ix file).trace → ev = Event.write name buffer := by
  intro n
  induction n with
  | zero => intro ix file ev h; simp [writeLoop] at h
  | succ n ih =>
    intro ix file ev h
    cases hw : os.write ix with
    | error pr =>
      obtain ⟨k, e⟩ := pr
      simp only [writeLoop, hw, List.mem_singleton] at h
      exact h
    | ok u =>
      simp only [writeLoop, hw, List.mem_cons] at h
      rcases h with h | h
      · exact h
      · exact ih _ _ ev h

/-! ## Facts about one pass -/

/-- The shape of a pass once the temp file exists and the buffer is filled. -/
theorem scrubOnceSecure_created (fuel : Nat) (os : PassOS) (tempDir : String)
    (bufferCount bufferSize : Nat) (p : List Byte) (hp : p ≠ []) (hfuel : bufferSize < fuel)
    (name : String) (hc : os.createTemp = .ok name) :
    ∃ buffer, fillPattern fuel (List.replicate bufferSize 0) p = some buffer ∧
      buffer.length = bufferSize ∧
      (∀ i, i < bufferSize → buffer[i]? = p[i % p.length]?) ∧
      scrubOnceSecure fuel os tempDir bufferCount bufferSize p =
        (match (writeLoop os name buffer bufferCount 0 []).err with
        | some e =>
          some ⟨Event.createTemp tempDir "zapfsfs_*.tmp" ::
            (writeLoop os name buffer bufferCount 0 []).trace ++
              [Event.close name, Event.remove name],
            (writeLoop os name buffer bufferCount 0 []).file,
            some ⟨"scrubOnceSecure: write failed: %w", some e⟩⟩
        | none =>
          some ⟨Event.createTemp tempDir "zapfsfs_*.tmp" ::
            (writeLoop os name buffer bufferCount 0 []).trace ++ [Event.sync name] ++
              [Event.close name, Event.remove name],
            (writeLoop os name buffer bufferCount 0 []).file,
            os.sync.map (fun e => ⟨"scrubOnceSecure: sync failed: %w", some e⟩)⟩) := by
  have hlen : (List.replicate bufferSize (0 : Byte)).length < fuel := by simpa using hfuel
  obtain ⟨buffer, hb, hbl, hall⟩ :=
    fillPattern_returns (List.replicate bufferSize 0) p hp fuel hlen
  have hpl : ¬ p.length < 1 := by
    have := List.length_pos.mpr hp
    omega
  refine ⟨buffer, hb, by simpa using hbl, fun i hi => hall i (by simpa using hi), ?_⟩
  simp only [scrubOnceSecure, hpl, if_false, hc, hb]
  cases (writeLoop os name buffer bufferCount 0 []).err with
  | some e => rfl
  | none => cases os.sync <;> rfl

/-! ## Claims on one pass -/

/-- C4: for a non-empty pattern and every outcome of the operating-system
calls, `scrubOnceSecure` returns, and it returns `nil` exactly when the temp-file
creation, all `bufferCount` writes and the sync succeed. When the creation fails
the error wraps its cause under the create label and nothing else is attempted;
when write `k` is the first to fail the error wraps its cause under the write
label after exactly `k + 1` writes and no sync; when the sync fails the error
wraps its cause under the sync label. -/
theorem scrubOnceSecure_result (fuel : Nat) (os : PassOS) (tempDir : String)
    (bufferCount bufferSize : Nat) (p : List Byte) (hp : p ≠ []) (hfuel : bufferSize < fuel) :
    ∃ r, scrubOnceSecure fuel os tempDir bufferCount bufferSize p = some r ∧
      (r.err = none ↔
        (∃ name, os.createTemp = .ok name) ∧ (∀ ix, ix < bufferCount → os.write ix = .ok ()) ∧
          os.sync = none) ∧
      (∀ e, os.createTemp = .error e →
        r.err = some ⟨"scrubOnceSecure: create temp file: %w", some e⟩ ∧
          r.trace = [Event.createTemp tempDir "zapfsfs_*.tmp"]) ∧
      (∀ name k m e, os.createTemp = .ok name → k < bufferCount →
        (∀ j, j < k → os.write j = .ok ()) → os.write k = .error (m, e) →
        r.err = some ⟨"scrubOnceSecure: write failed: %w", some e⟩ ∧
          ∃ buffer, r.trace = Event.createTemp tempDir "zapfsfs_*.tmp" ::
            List.replicate (k + 1) (Event.write name buffer) ++
              [Event.close name, Event.remove name]) ∧
      (∀ name e, os.createTemp = .ok name → (∀ ix, ix < bufferCount → os.write ix = .ok ()) →
        os.sync = some e →
        r.err = some ⟨"scrubOnceSecure: sync failed: %w", some e⟩ ∧
          ∃ buffer, r.trace = Event.createTemp tempDir "zapfsfs_*.tmp" ::
            List.replicate bufferCount (Event.write name buffer) ++
              [Event.sync name, Event.close name, Event.remove name]) := by
  have hpl : ¬ p.length < 1 := by
    have := List.length_pos.mpr hp
    omega
  cases hc : os.createTemp with
  | error e0 =>
    refine ⟨⟨[Event.createTemp tempDir "zapfsfs_*.tmp"], [],
      some ⟨"scrubOnceSecure: create temp file: %w", some e0⟩⟩,
      by simp only [scrubOnceSecure, hpl, if_false, hc], ?_, ?_, ?_, ?_⟩
    · simp
    · intro e he
      cases he
      exact ⟨rfl, rfl⟩
    · intro name k m e h; cases h
    · intro name e h; cases h
  | ok name0 =>
    obtain ⟨buffer, _, _, _, hs⟩ :=
      scrubOnceSecure_created fuel os tempDir bufferCount bufferSize p hp hfuel name0 hc
    by_cases hall : ∀ ix, ix < bufferCount → os.write ix = .ok ()
    · have hw := writeLoop_ok os name0 buffer bufferCount 0 []
        (fun j hj => by simpa using hall j hj)
      rw [hw] at hs
      refine ⟨_, hs, ?_, ?_, ?_, ?_⟩
      · constructor
        · intro h
          refine ⟨⟨name0, rfl⟩, hall, ?_⟩
          cases hsy : os.sync with
          | none => rfl
          | some e => rw [hsy] at h; simp at h
        · rintro ⟨_, _, hsy⟩
          simp [hsy]
      · intro e h; cases h
      · intro name k m e _ hk _ hfail
        rw [hall k hk] at hfail
        cases hfail
      · intro name e hn _ hsy
        cases hn
        exact ⟨by simp [hsy], buffer, by simp⟩
    · have hex : ∃ k, k < bufferCount ∧ os.write k ≠ .ok () := by
        by_contra hne
        exact hall (fun ix hix => by
          by_contra hx
          exact hne ⟨ix, hix, hx⟩)
      classical
      have hk := Nat.find_spec hex
      have hmin : ∀ j, j < Nat.find hex → os.write j = .ok () := by
        intro j hj
        by_contra hx
        exact Nat.find_min hex hj ⟨by omega, hx⟩
      obtain ⟨m0, e0, hfail⟩ : ∃ m0 e0, os.write (Nat.find hex) = .error (m0, e0) := by
        cases hw : os.write (Nat.find hex) with
        | error pr => exact ⟨pr.1, pr.2, rfl⟩
        | ok u => exact absurd hw hk.2
      have hw := writeLoop_fail os name0 buffer m0 e0 (Nat.find hex) bufferCount 0 [] hk.1
        (fun j hj => by simpa using hmin j hj) (by simpa using hfail)
      rw [hw] at hs
      refine ⟨_, hs, ?_, ?_, ?_, ?_⟩
      · constructor
        · intro h; simp at h
        · rintro ⟨_, hall', _⟩
          exact absurd hall' hall
      · intro e h; cases h
      · intro name k m e hn hkb hbefore hkf
        cases hn
        have hkeq : k = Nat.find hex := by
          rcases Nat.lt_trichotomy k (Nat.find hex) with hlt | heq | hgt
          · rw [hmin k hlt] at hkf; cases hkf
          · exact heq
          · rw [hbefore _ hgt] at hfail; cases hfail
        subst hkeq
        rw [hfail] at hkf
        cases hkf
        exact ⟨rfl, buffer, rfl⟩
      · intro name e _ hall' _
        exact absurd hall' hall

/-- C4 on a disk that fills up at the second of three writes: the pass returns
the write-stage error that wraps `ENOSPC`. -/
theorem scrubOnceSecure_result_witness :
    pattern ≠ [] ∧ 4 < 5 ∧
      ∃ r, scrubOnceSecure 5 (fullDiskPass "f") "/tmp" 3 4 pattern = some r ∧
        r.err = some ⟨"scrubOnceSecure: write failed: %w", some 28⟩ :=
  ⟨by decide, by decide,
    (scrubOnceSecure_result 5 (fullDiskPass "f") "/tmp" 3 4 pattern (by decide)
      (by decide)).elim
      (fun r h => ⟨r, h.1, (h.2.2.2.1 "f" 1 1 28 rfl (by decide)
        (fun j hj => by
          have hj0 : j = 0 := by omega
          subst hj0
          rfl) rfl).1⟩)⟩

/-- C5: in every call of `scrubOnceSecure` that created its temp file, whatever
the writes and the sync do, the trace ends with one close and one remove of
exactly that file, no close or remove comes before them, and the pass gives the
same result whatever the outcomes of that close and that remove are. -/
theorem scrubOnceSecure_cleanup (fuel : Nat) (os : PassOS) (tempDir : String)
    (bufferCount bufferSize : Nat) (p : List Byte) (name : String) (hp : p ≠ [])
    (hfuel : bufferSize < fuel) (hc : os.createTemp = .ok name) :
    ∃ r front, scrubOnceSecure fuel os tempDir bufferCount bufferSize p = some r ∧
      r.trace = front ++ [Event.close name, Event.remove name] ∧
      (∀ ev, ev ∈ front → ev.isCleanup = false) ∧
      (∀ cl rm : Option OSError,
        scrubOnceSecure fuel { os with close := cl, remove := rm } tempDir bufferCount
          bufferSize p = some r) := by
  obtain ⟨buffer, hb, _, _, hs⟩ :=
    scrubOnceSecure_created fuel os tempDir bufferCount bufferSize p hp hfuel name hc
  have hsame : ∀ cl rm : Option OSError,
      scrubOnceSecure fuel { os with close := cl, remove := rm } tempDir bufferCount
        bufferSize p = scrubOnceSecure fuel os tempDir bufferCount bufferSize p := by
    intro cl rm
    have hwl : ∀ (n ix : Nat) (file : List Byte),
        writeLoop { os with close := cl, remove := rm } name buffer n ix file =
          writeLoop os name buffer n ix file := by
      intro n
      induction n with
      | zero => intro ix file; rfl
      | succ n ih =>
        intro ix file
        simp only [writeLoop, ih]
    obtain ⟨buffer', hb', _, _, hs'⟩ :=
      scrubOnceSecure_created fuel { os with close := cl, remove := rm } tempDir bufferCount
        bufferSize p hp hfuel name hc
    rw [hb] at hb'
    cases hb'
    rw [hs', hs, hwl]
  have htr : ∀ ev, ev ∈ (writeLoop os name buffer bufferCount 0 []).trace →
      ev = Event.write name buffer :=
    writeLoop_trace_mem os name buffer bufferCount 0 []
  cases hwe : (writeLoop os name buffer bufferCount 0 []).err with
  | some e =>
    rw [hwe] at hs
    refine ⟨_, Event.createTemp tempDir "zapfsfs_*.tmp" ::
      (writeLoop os name buffer bufferCount 0 []).trace, hs, by simp, ?_,
      fun cl rm => by rw [hsame, hs]⟩
    intro ev hev
    rcases List.mem_cons.mp hev with h | h
    · subst h; rfl
    · rw [htr ev h]; rfl
  | none =>
    rw [hwe] at hs
    refine ⟨_, Event.createTemp tempDir "zapfsfs_*.tmp" ::
      (writeLoop os name buffer bufferCount 0 []).trace ++ [Event.sync name], hs, by simp, ?_,
      fun cl rm => by rw [hsame, hs]⟩
    intro ev hev
    rcases List.mem_append.mp hev with h | h
    · rcases List.mem_cons.mp h with h | h
      · subst h; rfl
      · rw [htr ev h]; rfl
    · rw [List.mem_singleton.mp h]; rfl

/-- C5 on a disk that fills up at the second of three writes: the temp file `f`
is closed and removed at the end of the pass. -/
theorem scrubOnceSecure_cleanup_witness :
    pattern ≠ [] ∧ 4 < 5 ∧ (fullDiskPass "f").createTemp = .ok "f" ∧
      ∃ r front, scrubOnceSecure 5 (fullDiskPass "f") "/tmp" 3 4 pattern = some r ∧
        r.trace = front ++ [Event.close "f", Event.remove "f"] ∧
        (∀ ev, ev ∈ front → ev.isCleanup = false) ∧
        (∀ cl rm : Option OSError,
          scrubOnceSecure 5 { fullDiskPass "f" with close := cl, remove := rm } "/tmp" 3 4
            pattern = some r) :=
  ⟨by decide, by decide, rfl,
    scrubOnceSecure_cleanup 5 (fullDiskPass "f") "/tmp" 3 4 pattern "f" (by decide)
      (by decide) rfl⟩

/-- C10: in a pass with a non-empty pattern `p` where every operating-system
call succeeds, the buffer is filled once and that same buffer is written
`bufferCount` times; at the sync the temp file holds `bufferCount * bufferSize`
bytes, its byte at offset `j` is `p[(j mod bufferSize) mod len p]`, and when
`len p` divides `bufferSize` that byte is `p[j mod len p]`. -/
theorem scrubOnceSecure_file (fuel : Nat) (os : PassOS) (tempDir : String)
    (bufferCount bufferSize : Nat) (p : List Byte) (name : String) (hp : p ≠ [])
    (hfuel : bufferSize < fuel) (hok : os.AllOk name bufferCount) :
    ∃ r buffer, scrubOnceSecure fuel os tempDir bufferCount bufferSize p = some r ∧
      r.err = none ∧
      fillPattern fuel (List.replicate bufferSize 0) p = some buffer ∧
      r.trace = Event.createTemp tempDir "zapfsfs_*.tmp" ::
        List.replicate bufferCount (Event.write name buffer) ++
          [Event.sync name, Event.close name, Event.remove name] ∧
      r.file = (List.replicate bufferCount buffer).flatten ∧
      r.file.length = bufferCount * bufferSize ∧
      (∀ j, j < bufferCount * bufferSize → r.file[j]? = p[j % bufferSize % p.length]?) ∧
      (p.length ∣ bufferSize →
        ∀ j, j < bufferCount * bufferSize → r.file[j]? = p[j % p.length]?) := by
  obtain ⟨hc, hw, hsy, _, _⟩ := hok
  obtain ⟨buffer, hb, hbl, hall, hs⟩ :=
    scrubOnceSecure_created fuel os tempDir bufferCount bufferSize p hp hfuel name hc
  rw [writeLoop_ok os name buffer bufferCount 0 [] (fun j hj => by simpa using hw j hj)] at hs
  have hbyte : ∀ j, j < bufferCount * bufferSize →
      (List.replicate bufferCount buffer).flatten[j]? = p[j % bufferSize % p.length]? := by
    intro j hj
    have hpos : 0 < bufferSize := by
      rcases Nat.eq_zero_or_pos bufferSize with h0 | h0
      · rw [h0] at hj; simp at hj
      · exact h0
    rw [flatten_replicate_getElem? buffer bufferCount j (by rw [hbl]; exact hj), hbl]
    exact hall _ (Nat.mod_lt _ hpos)
  refine ⟨_, buffer, hs, by simp [hsy], hb, by simp, by simp, ?_, ?_, ?_⟩
  · simp [flatten_replicate_length, hbl]
  · intro j hj
    simpa using hbyte j hj
  · intro hdvd j hj
    have := hbyte j hj
    rw [Nat.mod_mod_of_dvd j hdvd] at this
    simpa using this

/-- C10 for three buffers of four bytes of the default pattern. -/
theorem scrubOnceSecure_file_witness :
    pattern ≠ [] ∧ 4 < 5 ∧ (okPass "f").AllOk "f" 3 ∧
      ∃ r buffer, scrubOnceSecure 5 (okPass "f") "/tmp" 3 4 pattern = some r ∧
        r.err = none ∧
        fillPattern 5 (List.replicate 4 0) pattern = some buffer ∧
        r.trace = Event.createTemp "/tmp" "zapfsfs_*.tmp" ::
          List.replicate 3 (Event.write "f" buffer) ++
            [Event.sync "f", Event.close "f", Event.remove "f"] ∧
        r.file = (List.replicate 3 buffer).flatten ∧
        r.file.length = 3 * 4 ∧
        (∀ j, j < 3 * 4 → r.file[j]? = pattern[j % 4 % pattern.length]?) ∧
        (pattern.length ∣ 4 → ∀ j, j < 3 * 4 → r.file[j]? = pattern[j % pattern.length]?) :=
  ⟨by decide, by decide, ⟨rfl, fun _ _ => rfl, rfl, rfl, rfl⟩,
    scrubOnceSecure_file 5 (okPass "f") "/tmp" 3 4 pattern "f" (by decide) (by decide)
      ⟨rfl, fun _ _ => rfl, rfl, rfl, rfl⟩⟩

/-- C2 fails for `fillPattern`: with the empty pattern and a one-byte buffer the
call never returns, whatever the bound on its loop tests, so it signals
nothing. -/
theorem fillPattern_empty_pattern_diverges :
    ¬ ∃ (fuel : Nat) (r : List Byte), fillPattern fuel [0] [] = some r := by
  rintro ⟨fuel, r, h⟩
  have hnone : fillPattern fuel [0] [] = none := fillPatternLoop_nil_none fuel [0] (by decide)
  rw [hnone] at h
  cases h

/-- C2 as amended: the empty pattern is rejected by `scrubOnceSecure`, which
returns the configuration error before it makes any operating-system call,
allocates the buffer or calls `fillPattern`; `fillPattern` itself rejects
nothing: with the empty pattern it returns an empty buffer as it is and never
returns on a non-empty one. -/
theorem empty_pattern_rejected_by_scrubOnceSecure (fuel : Nat) (os : PassOS)
    (tempDir : String) (bufferCount bufferSize : Nat) (b : List Byte) :
    scrubOnceSecure fuel os tempDir bufferCount bufferSize [] =
        some ⟨[], [], some ⟨"scrubOnceSecure: empty fill pattern array", none⟩⟩ ∧
      fillPattern (fuel + 1) [] [] = some [] ∧
      (b ≠ [] → fillPattern fuel b [] = none) := by
  refine ⟨rfl, rfl, fun hb => ?_⟩
  exact fillPatternLoop_nil_none fuel b (List.length_pos.mpr hb)

/-- C2 as amended, at a run whose calls would all succeed and a one-byte buffer. -/
theorem empty_pattern_rejected_by_scrubOnceSecure_witness :
    scrubOnceSecure 9 (okPass "f") "/tmp" 1 1 [] =
        some ⟨[], [], some ⟨"scrubOnceSecure: empty fill pattern array", none⟩⟩ ∧
      fillPattern (9 + 1) [] [] = some [] ∧
      (([7] : List Byte) ≠ [] → fillPattern 9 [7] [] = none) :=
  empty_pattern_rejected_by_scrubOnceSecure 9 (okPass "f") "/tmp" 1 1 [7]

/-! ## Facts about the pass loop -/

/-- A pass with a non-empty pattern returns, and its trace holds
operating-system calls only. -/
theorem scrubOnceSecure_returns (fuel : Nat) (os : PassOS) (tempDir : String)
    (bufferCount bufferSize : Nat) (p : List Byte) (hp : p ≠ []) (hfuel : bufferSize < fuel) :
    ∃ r, scrubOnceSecure fuel os tempDir bufferCount bufferSize p = some r ∧
      ∀ ev, ev ∈ r.trace → ev.isDisk = true := by
  have hpl : ¬ p.length < 1 := by
    have := List.length_pos.mpr hp
    omega
  cases hc : os.createTemp with
  | error e0 =>
    refine ⟨⟨[Event.createTemp tempDir "zapfsfs_*.tmp"], [],
      some ⟨"scrubOnceSecure: create temp file: %w", some e0⟩⟩,
      by simp only [scrubOnceSecure, hpl, if_false, hc], ?_⟩
    intro ev hev
    rw [List.mem_singleton.mp hev]; rfl
  | ok name =>
    obtain ⟨buffer, _, _, _, hs⟩ :=
      scrubOnceSecure_created fuel os tempDir bufferCount bufferSize p hp hfuel name hc
    have hwr : ∀ ev, ev ∈ (writeLoop os name buffer bufferCount 0 []).trace →
        ev.isDisk = true := by
      intro ev hev
      rw [writeLoop_trace_mem os name buffer bufferCount 0 [] ev hev]; rfl
    cases hwe : (writeLoop os name buffer bufferCount 0 []).err with
    | some e =>
      rw [hwe] at hs
      refine ⟨_, hs, ?_⟩
      intro ev hev
      simp only [List.cons_append, List.mem_cons, List.mem_append, List.mem_singleton,
        List.not_mem_nil, or_false, List.append_assoc] at hev
      casesm* _ ∨ _
      all_goals first | contradiction | exact hwr ev ‹_› | (subst_vars; rfl)
    | none =>
      rw [hwe] at hs
      refine ⟨_, hs, ?_⟩
      intro ev hev
      simp only [List.cons_append, List.mem_cons, List.mem_append, List.mem_singleton,
        List.not_mem_nil, or_false, List.append_assoc] at hev
      casesm* _ ∨ _
      all_goals first | contradiction | exact hwr ev ‹_› | (subst_vars; rfl)

theorem scrubCalls_disk (trace : List Event) (h : ∀ ev, ev ∈ trace → ev.isDisk = true) :
    scrubCalls trace = [] := by
  apply List.filter_eq_nil_iff.mpr
  intro ev hev hcall
  have := h ev hev
  cases ev <;> simp_all [Event.isDisk, Event.isScrubCall]

theorem ended_not_mem_disk (trace : List Event) (h : ∀ ev, ev ∈ trace → ev.isDisk = true) :
    Event.stdout Output.ended ∉ trace := by
  intro hmem
  have := h _ hmem
  simp [Event.isDisk] at this

theorem passLoop_spec (fuel : Nat) (os : OS) (tempDir : String)
    (bufferCount bufferSize npasses : Nat) (hfuel : bufferSize < fuel) :
    ∀ (n ix : Nat), ∃ res,
      passLoop fuel os tempDir bufferCount bufferSize npasses n ix = some res ∧
      ((∀ j, j < n → PassSucceeds fuel os tempDir bufferCount bufferSize (ix + j)) →
        res.exitCode = 0 ∧
        scrubCalls res.trace =
          List.replicate n (Event.scrubOnceSecure tempDir bufferCount bufferSize pattern) ∧
        res.trace.getLast? = some (Event.stdout Output.ended)) ∧
      (∀ k, k < n →
        (∀ j, j < k → PassSucceeds fuel os tempDir bufferCount bufferSize (ix + j)) →
        PassFails fuel os tempDir bufferCount bufferSize (ix + k) →
        res.exitCode = 1 ∧
        scrubCalls res.trace =
          List.replicate (k + 1)
            (Event.scrubOnceSecure tempDir bufferCount bufferSize pattern) ∧
        Event.stdout Output.ended ∉ res.trace) := by
  intro n
  induction n with
  | zero =>
    intro ix
    refine ⟨⟨[Event.stdout Output.ended], 0⟩, rfl, fun _ => ⟨rfl, rfl, rfl⟩, ?_⟩
    intro k hk; omega
  | succ n ih =>
    intro ix
    obtain ⟨r, hr, hdisk⟩ :=
      scrubOnceSecure_returns fuel (os.pass ix) tempDir bufferCount bufferSize pattern
        (by decide) hfuel
    have hcalls := scrubCalls_disk r.trace hdisk
    have hend := ended_not_mem_disk r.trace hdisk
    cases herr : r.err with
    | some err =>
      refine ⟨⟨Event.stdout (Output.pass (ix + 1) npasses) ::
        Event.scrubOnceSecure tempDir bufferCount bufferSize pattern :: r.trace ++
          [Event.stderr (Diagnostic.passFailed (ix + 1) err)], 1⟩, ?_, ?_, ?_⟩
      · simp only [passLoop, hr, herr]
      · intro hall
        obtain ⟨r', hr', herr'⟩ := hall 0 (Nat.succ_pos n)
        rw [Nat.add_zero, hr] at hr'
        cases hr'
        rw [herr] at herr'
        cases herr'
      · intro k hk hbefore _
        have hk0 : k = 0 := by
          rcases Nat.eq_zero_or_pos k with h | h
          · exact h
          · obtain ⟨r', hr', herr'⟩ := hbefore 0 h
            rw [Nat.add_zero, hr] at hr'
            cases hr'
            rw [herr] at herr'
            cases herr'
        subst hk0
        refine ⟨rfl, ?_, ?_⟩
        · unfold scrubCalls at hcalls ⊢
          simp [List.filter_cons, List.filter_append, Event.isScrubCall, hcalls]
        · simp [hend]
    | none =>
      obtain ⟨rest, hrest, hok, hfail⟩ := ih (ix + 1)
      refine ⟨⟨Event.stdout (Output.pass (ix + 1) npasses) ::
        Event.scrubOnceSecure tempDir bufferCount bufferSize pattern :: r.trace ++
          rest.trace, rest.exitCode⟩, ?_, ?_, ?_⟩
      · simp only [passLoop, hr, herr, hrest]
      · intro hall
        obtain ⟨h1, h2, h3⟩ := hok (fun j hj => by
          have := hall (j + 1) (by omega)
          rwa [show ix + (j + 1) = ix + 1 + j by omega] at this)
        refine ⟨h1, ?_, ?_⟩
        · unfold scrubCalls at hcalls h2 ⊢
          simp [List.filter_cons, List.filter_append, Event.isScrubCall, hcalls, h2,
            List.replicate_succ]
        · have hne : rest.trace ≠ [] := by
            intro h0; rw [h0] at h3; simp at h3
          change (([Event.stdout (Output.pass (ix + 1) npasses),
            Event.scrubOnceSecure tempDir bufferCount bufferSize pattern] ++ r.trace) ++
              rest.trace).getLast? = _
          rw [List.getLast?_append_of_ne_nil _ hne]
          exact h3
      · intro k hk hbefore hkf
        cases k with
        | zero =>
          obtain ⟨r', err', hr', herr'⟩ := hkf
          rw [Nat.add_zero, hr] at hr'
          cases hr'
          rw [herr] at herr'
          cases herr'
        | succ k =>
          obtain ⟨h1, h2, h3⟩ := hfail k (by omega)
            (fun j hj => by
              have := hbefore (j + 1) (by omega)
              rwa [show ix + (j + 1) = ix + 1 + j by omega] at this)
            (by rwa [show ix + (k + 1) = ix + 1 + k by omega] at hkf)
          refine ⟨h1, ?_, ?_⟩
          · unfold scrubCalls at hcalls h2 ⊢
            simp [List.filter_cons, List.filter_append, Event.isScrubCall, hcalls, h2,
              List.replicate_succ]
          · simp [hend, h3]

/-! ## Claims on the orchestration -/

/-- C9: in a non-test run that has passed validation, the pre-flight check and
the directory and writability checks, `main` returns an outcome; when all
`npasses` passes succeed it calls `scrubOnceSecure` exactly `npasses` times with
the same arguments, prints `End.` last and exits with code 0; when pass `k`
(counted from 0) is the first to fail it exits with code 1 after exactly `k + 1`
calls and `End.` is not printed. -/
theorem main_pass_loop (fuel : Nat) (os : OS) (flags : Flags) (tempDir : String)
    (ht : flags.testRun = false) (hb : 1 ≤ flags.bufferSizeMB) (hc : 1 ≤ flags.bufferCount)
    (hn : 1 ≤ flags.npasses)
    (hfree : ¬ os.freeSpace.1 < flags.bufferCount * (flags.bufferSizeMB * mb % u64) % u64)
    (hstat : os.stat = .ok true) (hcreate : os.create = none) (hwrite : os.dummyWrite = none)
    (hfuel : flags.bufferSizeMB * mb % u64 < fuel) :
    ∃ res, main fuel os flags [tempDir] = some res ∧
      ((∀ j, j < flags.npasses →
          PassSucceeds fuel os tempDir flags.bufferCount (flags.bufferSizeMB * mb % u64) j) →
        res.exitCode = 0 ∧
        scrubCalls res.trace = List.replicate flags.npasses
          (Event.scrubOnceSecure tempDir flags.bufferCount (flags.bufferSizeMB * mb % u64)
            pattern) ∧
        res.trace.getLast? = some (Event.stdout Output.ended)) ∧
      (∀ k, k < flags.npasses →
        (∀ j, j < k →
          PassSucceeds fuel os tempDir flags.bufferCount (flags.bufferSizeMB * mb % u64) j) →
        PassFails fuel os tempDir flags.bufferCount (flags.bufferSizeMB * mb % u64) k →
        res.exitCode = 1 ∧
        scrubCalls res.trace = List.replicate (k + 1)
          (Event.scrubOnceSecure tempDir flags.bufferCount (flags.bufferSizeMB * mb % u64)
            pattern) ∧
        Event.stdout Output.ended ∉ res.trace) := by
  obtain ⟨rest, hrest, hok, hfail⟩ :=
    passLoop_spec fuel os tempDir flags.bufferCount (flags.bufferSizeMB * mb % u64)
      flags.npasses hfuel flags.npasses 0
  have hval : ¬ (flags.bufferSizeMB < 1 ∨ flags.bufferCount < 1 ∨ flags.npasses < 1) := by
    omega
  have hmain : main fuel os flags [tempDir] = some
      ⟨[Event.getFreeSpace tempDir,
        Event.stdout (Output.beginRun tempDir flags.bufferCount flags.bufferSizeMB
          (flags.bufferCount * (flags.bufferSizeMB * mb % u64) % u64) flags.npasses),
        Event.stdout (Output.freeSpace os.freeSpace.1)] ++
        ([Event.stat tempDir, Event.create (filepathJoin tempDir "zapfsfs_dummy.bin"),
          Event.write (filepathJoin tempDir "zapfsfs_dummy.bin") pattern,
          Event.close (filepathJoin tempDir "zapfsfs_dummy.bin"),
          Event.remove (filepathJoin tempDir "zapfsfs_dummy.bin")] ++ rest.trace),
        rest.exitCode⟩ := by
    simp only [main, hval, if_false, ht, hfree, mainChecks, hstat, hcreate, hwrite, hrest,
      Bool.not_false, if_true, Bool.false_eq_true]
  have hcalls : ∀ tr : List Event, scrubCalls
      ([Event.getFreeSpace tempDir,
        Event.stdout (Output.beginRun tempDir flags.bufferCount flags.bufferSizeMB
          (flags.bufferCount * (flags.bufferSizeMB * mb % u64) % u64) flags.npasses),
        Event.stdout (Output.freeSpace os.freeSpace.1)] ++
        ([Event.stat tempDir, Event.create (filepathJoin tempDir "zapfsfs_dummy.bin"),
          Event.write (filepathJoin tempDir "zapfsfs_dummy.bin") pattern,
          Event.close (filepathJoin tempDir "zapfsfs_dummy.bin"),
          Event.remove (filepathJoin tempDir "zapfsfs_dummy.bin")] ++ tr)) = scrubCalls tr := by
    intro tr
    simp [scrubCalls, List.filter_cons, Event.isScrubCall]
  refine ⟨_, hmain, ?_, ?_⟩
  · intro hall
    obtain ⟨h1, h2, h3⟩ := hok (fun j hj => by simpa using hall j hj)
    refine ⟨h1, by rw [hcalls]; exact h2, ?_⟩
    have hne : rest.trace ≠ [] := by
      intro h0; rw [h0] at h3; simp at h3
    rw [← List.append_assoc, List.getLast?_append_of_ne_nil _ hne]
    exact h3
  · intro k hk hbefore hkf
    obtain ⟨h1, h2, h3⟩ := hfail k hk (fun j hj => by simpa using hbefore j hj)
      (by simpa using hkf)
    refine ⟨h1, by rw [hcalls]; exact h2, ?_⟩
    simp [h3]

/-- C9 for two passes of two one-megabyte buffers on a system where a gigabyte
is free and the checks pass. -/
theorem main_pass_loop_witness :
    (1 ≤ 1 ∧ 1 ≤ 2 ∧ 1 ≤ 2 ∧ ¬ (okOS 1000000000 "f").freeSpace.1 < 2 * (1 * mb % u64) % u64 ∧
      1 * mb % u64 < 2000000) ∧
    ∃ res, main 2000000 (okOS 1000000000 "f") ⟨1, 2, 2, false⟩ ["/tmp"] = some res ∧
      ((∀ j, j < 2 →
          PassSucceeds 2000000 (okOS 1000000000 "f") "/tmp" 2 (1 * mb % u64) j) →
        res.exitCode = 0 ∧
        scrubCalls res.trace = List.replicate 2
          (Event.scrubOnceSecure "/tmp" 2 (1 * mb % u64) pattern) ∧
        res.trace.getLast? = some (Event.stdout Output.ended)) ∧
      (∀ k, k < 2 →
        (∀ j, j < k →
          PassSucceeds 2000000 (okOS 1000000000 "f") "/tmp" 2 (1 * mb % u64) j) →
        PassFails 2000000 (okOS 1000000000 "f") "/tmp" 2 (1 * mb % u64) k →
        res.exitCode = 1 ∧
        scrubCalls res.trace = List.replicate (k + 1)
          (Event.scrubOnceSecure "/tmp" 2 (1 * mb % u64) pattern) ∧
        Event.stdout Output.ended ∉ res.trace) :=
  ⟨⟨by decide, by decide, by decide, by decide, by decide⟩,
    main_pass_loop 2000000 (okOS 1000000000 "f") ⟨1, 2, 2, false⟩ "/tmp" rfl (by decide)
      (by decide) (by decide) (by decide) rfl rfl rfl (by decide)⟩

/-- C6: a run with at least one positional argument and a zero buffer size,
buffer count or pass count, with or without `-t`, exits with code 1 and makes no
operating-system call: no free-space query, no stat, and no file is created,
written, synced, closed or removed. -/
theorem main_rejects_zero (fuel : Nat) (os : OS) (flags : Flags) (args : List String)
    (hargs : args ≠ [])
    (hzero : flags.bufferSizeMB = 0 ∨ flags.bufferCount = 0 ∨ flags.npasses = 0) :
    ∃ res, main fuel os flags args = some res ∧ res.exitCode = 1 ∧
      ∀ ev, ev ∈ res.trace → ev.isDisk = false := by
  have hval : flags.bufferSizeMB < 1 ∨ flags.bufferCount < 1 ∨ flags.npasses < 1 := by
    omega
  match args, hargs with
  | [tempDir], _ =>
    refine ⟨⟨[Event.stderr Diagnostic.notPositive], 1⟩, ?_, rfl, ?_⟩
    · simp only [main, hval, if_true]
    · intro ev hev
      rw [List.mem_singleton.mp hev]; rfl
  | _ :: _ :: _, _ =>
    refine ⟨⟨[Event.stderr Diagnostic.tempdirRequired, Event.stdout Output.usage], 1⟩,
      rfl, rfl, ?_⟩
    intro ev hev
    simp only [List.mem_cons, List.mem_singleton, List.not_mem_nil, or_false] at hev
    rcases hev with h | h <;> (subst h; rfl)

/-- C6 for `-t -b=0 /tmp` on a system where every call would succeed. -/
theorem main_rejects_zero_witness :
    (["/tmp"] : List String) ≠ [] ∧ ((0 : Nat) = 0 ∨ (1000 : Nat) = 0 ∨ (5 : Nat) = 0) ∧
      ∃ res, main 0 (okOS 1000000000 "f") ⟨0, 1000, 5, true⟩ ["/tmp"] = some res ∧
        res.exitCode = 1 ∧ ∀ ev, ev ∈ res.trace → ev.isDisk = false :=
  ⟨by decide, Or.inl rfl,
    main_rejects_zero 0 (okOS 1000000000 "f") ⟨0, 1000, 5, true⟩ ["/tmp"] (by decide)
      (Or.inl rfl)⟩

/-- C7 fails as stated: a test run with the default flags queries the free
space of `/tmp`, and a test run with `-b=0` exits with code 1. -/
theorem main_test_run_queries_free_space :
    (∃ res, main 0 (okOS 1000000000 "f") ⟨10, 1000, 5, true⟩ ["/tmp"] = some res ∧
        Event.getFreeSpace "/tmp" ∈ res.trace) ∧
      (∃ res, main 0 (okOS 1000000000 "f") ⟨0, 1000, 5, true⟩ ["/tmp"] = some res ∧
        res.exitCode = 1) :=
  ⟨⟨_, rfl, List.mem_cons_self _ _⟩, ⟨_, rfl, rfl⟩⟩

/-- C7 as amended: a test run with one TEMPDIR argument that names an existing
writable directory and flags `-b`, `-c`, `-n` that are all at least 1 queries
the free space once without comparing it, prints the test-run banner, makes the
directory and writability checks, never calls `scrubOnceSecure`, creates no
scrub temp file, prints `End.` and exits with code 0. -/
theorem main_test_run (fuel : Nat) (os : OS) (flags : Flags) (tempDir : String)
    (ht : flags.testRun = true) (hb : 1 ≤ flags.bufferSizeMB) (hc : 1 ≤ flags.bufferCount)
    (hn : 1 ≤ flags.npasses) (hstat : os.stat = .ok true) (hcreate : os.create = none)
    (hwrite : os.dummyWrite = none) :
    main fuel os flags [tempDir] = some
      ⟨[Event.getFreeSpace tempDir, Event.stdout Output.beginTestRun, Event.stat tempDir,
        Event.create (filepathJoin tempDir "zapfsfs_dummy.bin"),
        Event.write (filepathJoin tempDir "zapfsfs_dummy.bin") pattern,
        Event.close (filepathJoin tempDir "zapfsfs_dummy.bin"),
        Event.remove (filepathJoin tempDir "zapfsfs_dummy.bin"),
        Event.stdout Output.ended], 0⟩ := by
  have hval : ¬ (flags.bufferSizeMB < 1 ∨ flags.bufferCount < 1 ∨ flags.npasses < 1) := by
    omega
  simp only [main, hval, if_false, ht, if_true, mainChecks, hstat, hcreate, hwrite,
    Bool.not_true, Bool.false_eq_true, List.cons_append, List.nil_append]

/-- C7 as amended, for `-t /tmp` with the default flags. -/
theorem main_test_run_witness :
    (1 ≤ 10 ∧ 1 ≤ 1000 ∧ 1 ≤ 5) ∧
      main 0 (okOS 1000000000 "f") ⟨10, 1000, 5, true⟩ ["/tmp"] = some
        ⟨[Event.getFreeSpace "/tmp", Event.stdout Output.beginTestRun, Event.stat "/tmp",
          Event.create (filepathJoin "/tmp" "zapfsfs_dummy.bin"),
          Event.write (filepathJoin "/tmp" "zapfsfs_dummy.bin") pattern,
          Event.close (filepathJoin "/tmp" "zapfsfs_dummy.bin"),
          Event.remove (filepathJoin "/tmp" "zapfsfs_dummy.bin"),
          Event.stdout Output.ended], 0⟩ :=
  ⟨⟨by decide, by decide, by decide⟩,
    main_test_run 0 (okOS 1000000000 "f") ⟨10, 1000, 5, true⟩ "/tmp" rfl (by decide)
      (by decide) (by decide) rfl rfl rfl⟩

/-- C3 fails on the code: with `-b=17592186044416 -c=1 -n=1` one pass is
`2 ^ 64` bytes, more than the 5242880 bytes available, yet the `uint64` product
wraps to 0, the pre-flight check passes, the throwaway file and the temp file
are created, and the run exits with code 0. -/
theorem main_preflight_wraps :
    5242880 < 1 * 17592186044416 * 1048576 ∧
      main 1 (okOS 5242880 "f") ⟨17592186044416, 1, 1, false⟩ ["/tmp"] = some
        ⟨[Event.getFreeSpace "/tmp",
          Event.stdout (Output.beginRun "/tmp" 1 17592186044416 0 1),
          Event.stdout (Output.freeSpace 5242880),
          Event.stat "/tmp", Event.create "/tmp/zapfsfs_dummy.bin",
          Event.write "/tmp/zapfsfs_dummy.bin" [0xAA, 0x55],
          Event.close "/tmp/zapfsfs_dummy.bin", Event.remove "/tmp/zapfsfs_dummy.bin",
          Event.stdout (Output.pass 1 1),
          Event.scrubOnceSecure "/tmp" 1 0 [0xAA, 0x55],
          Event.createTemp "/tmp" "zapfsfs_*.tmp", Event.write "f" [], Event.sync "f",
          Event.close "f", Event.remove "f", Event.stdout Output.ended], 0⟩ :=
  ⟨by decide, rfl⟩

/-! ## Claims on the free-space probe -/

theorem toUint64_of_nonneg (x : Int) (h : 0 ≤ x) : toUint64 x = x.toNat % u64 := by
  obtain ⟨n, rfl⟩ := Int.eq_ofNat_of_zero_le h
  simp only [toUint64, Int.toNat_ofNat]
  rw [← Int.natCast_mod, Int.toNat_ofNat]

/-- C8 fails as stated: when `Statfs` reports `2 ^ 63` available blocks of 2
bytes the POSIX `getFreeSpace` returns 0 with no error, not the product
`2 ^ 64`. -/
theorem getFreeSpacePosix_wraps :
    getFreeSpacePosix (.ok ⟨9223372036854775808, 2⟩) = (0, none) ∧
      (getFreeSpacePosix (.ok ⟨9223372036854775808, 2⟩)).1 ≠ 9223372036854775808 * 2 :=
  ⟨by decide, by decide⟩

/-- C8 as amended: the POSIX `getFreeSpace` returns 0 and the error when
`Statfs` fails, and otherwise, with no error, exactly `Bavail * Bsize` whenever
the block size is not negative and that product is below `2 ^ 64`; the Windows
`getFreeSpace` returns 0 and the error when the path conversion or
`GetDiskFreeSpaceEx` fails, and otherwise, with no error, the bytes available to
the caller unchanged, whatever the total and total-free values are. -/
theorem getFreeSpace_value (stat : Statfs_t) (err : OSError) (avail total free : Nat)
    (disk : Except OSError (Nat × Nat × Nat)) (hsize : 0 ≤ stat.Bsize)
    (hfit : stat.Bavail * stat.Bsize.toNat < u64) :
    getFreeSpacePosix (.error err) = (0, some err) ∧
      getFreeSpacePosix (.ok stat) = (stat.Bavail * stat.Bsize.toNat, none) ∧
      getFreeSpaceWindows (some err) disk = (0, some err) ∧
      getFreeSpaceWindows none (.error err) = (0, some err) ∧
      getFreeSpaceWindows none (.ok (avail, total, free)) = (avail, none) := by
  refine ⟨rfl, ?_, rfl, rfl, rfl⟩
  simp only [getFreeSpacePosix, toUint64_of_nonneg stat.Bsize hsize]
  rw [Nat.mul_mod, Nat.mod_mod, ← Nat.mul_mod, Nat.mod_eq_of_lt hfit]

/-- C8 as amended, for 10 available blocks of 4096 bytes and 40960 bytes
available to the caller. -/
theorem getFreeSpace_value_witness :
    ((0 : Int) ≤ 4096 ∧ 10 * (4096 : Int).toNat < u64) ∧
      getFreeSpacePosix (.error 2) = (0, some 2) ∧
      getFreeSpacePosix (.ok ⟨10, 4096⟩) = (10 * (4096 : Int).toNat, none) ∧
      getFreeSpaceWindows (some 2) (.ok (40960, 99999, 50000)) = (0, some 2) ∧
      getFreeSpaceWindows none (.error 2) = (0, some 2) ∧
      getFreeSpaceWindows none (.ok (40960, 99999, 50000)) = (40960, none) :=
  ⟨⟨by decide, by decide⟩,
    getFreeSpace_value ⟨10, 4096⟩ 2 40960 99999 50000 (.ok (40960, 99999, 50000))
      (by decide) (by decide)⟩

end Zapfsfs
